import Mathlib

/-!
Shallow embedding of `sitegen.py` (francium/sitegen), a small static-site
generator, together with proofs about the claims of its specification.

Strings are modelled as `List Char`; the helpers below reproduce the exact
semantics of the Python string operations used by the source
(`in`, `str.find`, `str.replace`, `str.strip`, and the two regular
expression patterns that the directive preprocessor uses).
-/

namespace Sitegen

/-- Str is the model of a Python `str`: a list of characters. -/
abbrev Str := List Char

/-- Model of Python's notion of whitespace for `\s` and `str.strip`
(ASCII range: space, tab, newline, carriage return, vertical tab, form feed). -/
def pyIsSpace (c : Char) : Bool :=
  c = ' ' || c = '\t' || c = '\n' || c = '\r' || c = '\x0b' || c = '\x0c'

/-- Model of Python `str.strip` with no argument: drop whitespace from both ends. -/
def pyStrip (s : Str) : Str :=
  ((s.dropWhile pyIsSpace).reverse.dropWhile pyIsSpace).reverse

/-- Index of the first occurrence of `pat` in `s` (Python `str.find`, as an
`Option` instead of the `-1` sentinel). -/
def findSub (pat : Str) : Str → Option Nat
  | [] => if pat = [] then some 0 else none
  | c :: rest =>
    if pat.isPrefixOf (c :: rest) then some 0
    else (findSub pat rest).map (· + 1)

/-- Model of Python's substring containment test (the `in` operator). -/
def containsSub (s pat : Str) : Bool :=
  (findSub pat s).isSome

/-- Fuelled worker for `replaceAll`. -/
def replaceAllFuel (pat repl : Str) : Nat → Str → Str
  | 0, s => s
  | n + 1, s =>
    match findSub pat s with
    | none => s
    | some i =>
      s.take i ++ repl ++ replaceAllFuel pat repl n (s.drop (i + pat.length))

/-- Model of Python `str.replace(pat, repl)`: replace every (leftmost,
non-overlapping) occurrence.  The source never calls it with an empty
pattern; for an empty pattern we return `s` unchanged. -/
def replaceAll (s pat repl : Str) : Str :=
  if pat = [] then s else replaceAllFuel pat repl s.length s

/-!  The regular-expression model.

The source uses exactly two patterns (Python `re.search`, leftmost match,
greedy quantifiers):

  * `\x7b\x7b\s*(?:KW)\s+"(.*)"\s*\x7d\x7d`  for `KW` in `title`, `desc`;
  * `\x7b\x7b\s*(?:posts)\s*\x7d\x7d`.

In these patterns every backtracking choice is determined: each `\s*`/`\s+`
is followed by a non-whitespace literal, so maximal munch is exact, and the
greedy `(.*)` (which cannot cross a newline) takes the rightmost closing
quote on the line whose tail still matches `"\s*\x7d\x7d`. -/

/-- Match `\s*\x7d\x7d` against a prefix of `s`; return the number of
characters consumed. -/
def dirTailLen (s : Str) : Option Nat :=
  let w := (s.takeWhile pyIsSpace).length
  if (s.drop w).take 2 = ['\x7d', '\x7d'] then some (w + 2) else none

/-- Maximum of a list of naturals, `none` when empty. -/
def natMax : List Nat → Option Nat
  | [] => none
  | x :: xs =>
    match natMax xs with
    | none => some x
    | some m => some (Nat.max x m)

/-- Given the text following the opening quote, find the position of the
closing quote chosen by the greedy `(.*)`: the rightmost `"` on the current
line after which `\s*\x7d\x7d` matches. -/
def bestCloseQuote (s : Str) : Option Nat :=
  let lineLen := (s.takeWhile (fun c => c ≠ '\n')).length
  natMax ((List.range lineLen).filter
    (fun j => s.get? j = some '"' && (dirTailLen (s.drop (j + 1))).isSome))

/-- Try to match `\x7b\x7b\s*(?:kw)\s+"(.*)"\s*\x7d\x7d` at the start of `s`;
return the length of the matched text and the captured group. -/
def matchDirArgAt (kw : Str) (s : Str) : Option (Nat × Str) :=
  if s.take 2 = ['\x7b', '\x7b'] then
    let s2 := s.drop 2
    let w1 := (s2.takeWhile pyIsSpace).length
    let s3 := s2.drop w1
    if kw.isPrefixOf s3 then
      let s4 := s3.drop kw.length
      let w2 := (s4.takeWhile pyIsSpace).length
      if w2 = 0 then none
      else
        let s5 := s4.drop w2
        match s5 with
        | '"' :: s6 =>
          match bestCloseQuote s6 with
          | some j =>
            match dirTailLen (s6.drop (j + 1)) with
            | some t => some (2 + w1 + kw.length + w2 + 1 + j + 1 + t, s6.take j)
            | none => none
          | none => none
        | _ => none
    else none
  else none

/-- Model of `re.search` for the argument-taking directive pattern: try each
start position from the left; at the first position that matches, return
the matched text `m[0]` and the capture `m[1]`. -/
def reSearchDir (kw : Str) : Str → Option (Str × Str)
  | [] => none
  | c :: rest =>
    match matchDirArgAt kw (c :: rest) with
    | some (len, cap) => some ((c :: rest).take len, cap)
    | none => reSearchDir kw rest

/-- Try to match `\x7b\x7b\s*(?:posts)\s*\x7d\x7d` at the start of `s`;
return the length of the matched text. -/
def matchPostsAt (s : Str) : Option Nat :=
  if s.take 2 = ['\x7b', '\x7b'] then
    let s2 := s.drop 2
    let w1 := (s2.takeWhile pyIsSpace).length
    let s3 := s2.drop w1
    if ("posts".toList).isPrefixOf s3 then
      match dirTailLen (s3.drop 5) with
      | some t => some (2 + w1 + 5 + t)
      | none => none
    else none
  else none

/-- Model of `re.search` for the `posts` pattern: matched text of the
leftmost match. -/
def reSearchPosts : Str → Option Str
  | [] => none
  | c :: rest =>
    match matchPostsAt (c :: rest) with
    | some len => some ((c :: rest).take len)
    | none => reSearchPosts rest

/-!  Data model (`Config`, `FileMetadata`, `File`, `FileTree`, `State`),
translated from the dataclasses of the source.  Python `Optional[str]`
fields become `Option Str`; the dataclass defaults are the Lean defaults. -/

/-- Config data class: the five optional settings of `config.json`. -/
structure Config where
  posts_dir : Option Str := none
  include_before : Option Str := none
  include_after : Option Str := none
  static_src : Option Str := none
  static_dest : Option Str := none
deriving DecidableEq

/-- FileMetadata data class: per-file title and description, empty until the
directive preprocessor populates them. -/
structure FileMetadata where
  title : Str := []
  desc : Str := []
deriving DecidableEq

/-- File data class: one discovered content file. -/
structure File where
  path : Str
  metadata : FileMetadata := {}
  is_post : Bool := false
  md : Str := []
  html : Str := []
deriving DecidableEq

/-- FileTree data class: a directory path, the content files directly in it,
and the subdirectory trees. -/
inductive FileTree where
  | mk (path : Str) (files : List File) (trees : List FileTree)

/-- Directory path of a tree node. -/
def FileTree.path : FileTree → Str
  | .mk p _ _ => p

/-- Content files directly in a tree node. -/
def FileTree.files : FileTree → List File
  | .mk _ fs _ => fs

/-- Subdirectory trees of a tree node. -/
def FileTree.trees : FileTree → List FileTree
  | .mk _ _ ts => ts

/-- State data class: the per-run build state. -/
structure State where
  posts : List File := []
  static_pages : List File := []
  include_before : Str := []
  include_after : Str := []
deriving DecidableEq

/-!  The directive preprocessor (`preprocess_md` and its inner functions
`title`, `desc`, `posts`), translated step by step.  Python mutates the
shared `FileMetadata` object and rebinds the local `md`; the embedding
threads both values explicitly. -/

/-- Output URL of a post, from the `posts` inner function:
`p.path[p.path.find("/"):].replace(".md", ".html")`.  When the path has no
slash, Python's `find` returns `-1` and the slice `[-1:]` keeps just the
last character. -/
def url (path : Str) : Str :=
  let sliced :=
    match findSub ("/".toList) path with
    | some i => path.drop i
    | none => path.drop (path.length - 1)
  replaceAll sliced (".md".toList) (".html".toList)

/-- One block of the generated posts index, for one post record (the body of
the loop in the `posts` inner function). -/
def entryHtml (p : File) : Str :=
  ("<div class=\"post\">\n<div class=\"post-heading\">\n<a href=\"".toList)
    ++ url p.path ++ ("\">".toList) ++ p.metadata.title
    ++ ("</a>\n</div>\n<div class=\"post-desc\">\n".toList)
    ++ p.metadata.desc ++ ("\n</div>\n</div>\n".toList)

/-- The full substitution fragment for the `posts` directive: the outer
container wrapping one `entryHtml` block per post, in list order. -/
def postsHtml (posts : List File) : Str :=
  ("<div class=\"posts\">".toList) ++ (posts.map entryHtml).flatten ++ ("</div>".toList)

/-- The entry block generated for a post whose metadata is still at its
defaults (title and description both empty): the link text and the
description slot are empty. -/
def emptyEntry (path : Str) : Str :=
  ("<div class=\"post\">\n<div class=\"post-heading\">\n<a href=\"".toList)
    ++ url path
    ++ ("\"></a>\n</div>\n<div class=\"post-desc\">\n\n</div>\n</div>\n".toList)

/-- Substring pre-check guarding the `title` step. -/
def titlePre (md : Str) : Bool :=
  containsSub md ("\x7b\x7b title".toList) || containsSub md ("\x7b\x7btitle".toList)

/-- Substring pre-check guarding the `desc` step. -/
def descPre (md : Str) : Bool :=
  containsSub md ("\x7b\x7b desc".toList) || containsSub md ("\x7b\x7bdesc".toList)

/-- Substring pre-check guarding the `posts` step. -/
def postsPre (md : Str) : Bool :=
  containsSub md ("\x7b\x7b posts".toList) || containsSub md ("\x7b\x7bposts".toList)

/-- Inner function `title`: search the document for the title directive;
on a match set `metadata.title`, delete the matched text (every occurrence,
Python `str.replace`), and prepend a level-1 heading line.  On a failed
search return the `Err` that `unwrap` will raise on.  (When the pattern
matches, Python's `m.lastindex` is always `1`, so that check never fails.) -/
def titleStep (meta : FileMetadata) (md : Str) : Except Str (FileMetadata × Str) :=
  match reSearchDir ("title".toList) md with
  | none => .error ("Invalid match on 'title'".toList)
  | some (m0, cap) =>
    .ok ({ meta with title := cap },
      ("# ".toList) ++ cap ++ ("\n".toList) ++ replaceAll md m0 [])

/-- Inner function `desc`: like `titleStep` but sets `metadata.desc` and
injects no heading. -/
def descStep (meta : FileMetadata) (md : Str) : Except Str (FileMetadata × Str) :=
  match reSearchDir ("desc".toList) md with
  | none => .error ("Invalid match on 'desc'".toList)
  | some (m0, cap) =>
    .ok ({ meta with desc := cap }, replaceAll md m0 [])

/-- Inner function `posts`: search for the posts directive and replace it
(every occurrence of the matched text) with the generated index fragment. -/
def postsStep (posts : List File) (md : Str) : Except Str Str :=
  match reSearchPosts md with
  | none => .error ("Invalid match on 'posts'".toList)
  | some m0 => .ok (replaceAll md m0 (postsHtml posts))

/-- Table-of-contents rewrite: `if "[toc]" in md: md = md.replace("[toc]", "[TOC]")`. -/
def tocStep (md : Str) : Str :=
  if containsSub md ("[toc]".toList) then replaceAll md ("[toc]".toList) ("[TOC]".toList) else md

/-- In Python the `FileMetadata` object mutated by `preprocess_md` is the
very object sitting in `state.posts` when the current file is a post, so
the `posts` inner function sees the current file's just-written metadata.
The embedding reproduces that aliasing by writing the updated metadata back
into the snapshot list at the current file's index before the posts step. -/
def writeSelf (posts : List File) (selfIdx : Option Nat) (meta : FileMetadata) : List File :=
  match selfIdx with
  | none => posts
  | some i =>
    match posts.get? i with
    | none => posts
    | some f => posts.set i { f with metadata := meta }

/-- Translation of `preprocess_md`.  `statePosts` is `state.posts` at call
time and `selfIdx` is the index of the file being processed inside it
(`none` for a static page).  Each `.unwrap()` of the source is the `Except`
bind: a failed directive search aborts the whole record. -/
def preprocess_md (statePosts : List File) (selfIdx : Option Nat)
    (file_metadata : FileMetadata) (md0 : Str) : Except Str (FileMetadata × Str) :=
  match (if titlePre md0 then titleStep file_metadata md0 else .ok (file_metadata, md0)) with
  | .error e => .error e
  | .ok (m1, md1) =>
    match (if descPre md1 then descStep m1 md1 else .ok (m1, md1)) with
    | .error e => .error e
    | .ok (m2, md2) =>
      match (if postsPre md2 then postsStep (writeSelf statePosts selfIdx m2) md2
             else .ok md2) with
      | .error e => .error e
      | .ok md3 => .ok (m2, pyStrip (tocStep md3))

/-!  The two passes of `preprocess_pages`: the source iterates over
`state.posts + state.static_pages`, mutating each record in place.  The
embedding processes the posts list with an accumulator (`done` = already
processed prefix), so the snapshot seen by the `posts` directive is
`done ++ current :: pending`, exactly the aliased list Python sees. -/

/-- Process the posts pass from left to right; `done` holds the already
preprocessed posts. -/
def processPostList (done : List File) : List File → Except Str (List File)
  | [] => .ok done
  | f :: rest =>
    match preprocess_md (done ++ f :: rest) (some done.length) f.metadata f.md with
    | .error e => .error e
    | .ok (m, s) => processPostList (done ++ [{ f with metadata := m, md := s }]) rest

/-- Process the pages pass; the posts list is fixed during it. -/
def processPageList (posts : List File) : List File → Except Str (List File)
  | [] => .ok []
  | f :: rest =>
    match preprocess_md posts none f.metadata f.md with
    | .error e => .error e
    | .ok (m, s) =>
      match processPageList posts rest with
      | .error e => .error e
      | .ok rest' => .ok ({ f with metadata := m, md := s } :: rest')

/-- Translation of `preprocess_pages`: first every post, then every page
(the source's single loop over `state.posts + state.static_pages`). -/
def preprocess_pages (state : State) : Except Str State :=
  match processPostList [] state.posts with
  | .error e => .error e
  | .ok posts' =>
    match processPageList posts' state.static_pages with
    | .error e => .error e
    | .ok pages' => .ok { state with posts := posts', static_pages := pages' }

/-!  The tree builder (`build_file_tree`).  The real function walks the
disk with `listdir`/`isdir`; the embedding walks a value of type `FSNode`
describing the directory contents, in `listdir` order. -/

/-- A directory listing in `listdir` order: each entry is a plain file or
a subdirectory with its own listing (the `isdir` test of the source). -/
inductive FSEntries where
  | nil
  | fileEntry (name : Str) (rest : FSEntries)
  | dirEntry (name : Str) (children : FSEntries) (rest : FSEntries)

/-- A filesystem node: either a plain file or a directory with its entries
in listing order. -/
inductive FSNode where
  | file
  | dir (entries : FSEntries)

/-- Exclusion test of `build_file_tree`: Python checks
`fname in ["config.json", config.include_before, config.include_after,
config.static_src]`, where unset config fields are `None` and never equal a
string. -/
def isExcluded (config : Config) (fname : Str) : Bool :=
  fname = "config.json".toList
    || config.include_before = some fname
    || config.include_after = some fname
    || config.static_src = some fname

/-- Model of POSIX `os.path.join` with two arguments. -/
def pyJoin (a b : Str) : Str :=
  if ("/".toList).isPrefixOf b then b
  else if a = [] then b
  else if a.getLast? = some '/' then a ++ b
  else a ++ ("/".toList) ++ b

/-- Body of the `for fname in dir_files` loop of `build_file_tree`:
excluded names are skipped; a directory is recursed into (a failure
aborting the whole walk); any other entry becomes a `File` whose `is_post`
flag compares the current directory against `root` joined with the
configured posts directory.  When `config.posts_dir` is unset Python's
`path_join(root, None)` raises `TypeError`; the embedding returns that as
an error. -/
def buildDir (root : Str) (config : Config) (dirPath : Str) :
    FSEntries → Except Str (List File × List FileTree)
  | .nil => .ok ([], [])
  | .fileEntry fname rest =>
    if isExcluded config fname then buildDir root config dirPath rest
    else
      match config.posts_dir with
      | none => .error ("TypeError: join() argument must be str, not NoneType".toList)
      | some pd =>
        match buildDir root config dirPath rest with
        | .error e => .error e
        | .ok (fls, ts) =>
          .ok ({ path := pyJoin dirPath fname,
                 is_post := dirPath = pyJoin root pd : File } :: fls, ts)
  | .dirEntry fname children rest =>
    if isExcluded config fname then buildDir root config dirPath rest
    else
      match buildDir root config (pyJoin dirPath fname) children with
      | .error e => .error e
      | .ok (cfs, cts) =>
        match buildDir root config dirPath rest with
        | .error e => .error e
        | .ok (fls, ts) => .ok (fls, FileTree.mk (pyJoin dirPath fname) cfs cts :: ts)

/-- Translation of `build_file_tree` on the root directory: `listdir` on a
plain file raises `NotADirectoryError`, which the source catches and turns
into `Err`. -/
def build_file_tree (fs : FSNode) (dir root : Str) (config : Config) :
    Except Str FileTree :=
  match fs with
  | .file => .error ("NotADirectoryError".toList)
  | .dir entries =>
    match buildDir root config dir entries with
    | .error e => .error e
    | .ok (fls, ts) => .ok (FileTree.mk dir fls ts)

/-- Translation of `load_before_after_files`.  File reads are modelled by
the oracle `readF`.  The whole body sits in one `try` whose handler is
`except Exception: pass`: a failed read abandons the remaining assignments
and the function returns normally, with the state as it was. -/
def load_before_after_files (readF : Str → Except Str Str) (root : Str)
    (config : Config) (state : State) : State :=
  match config.include_before with
  | some ib =>
    match readF (pyJoin root ib) with
    | .error _ => state
    | .ok txt =>
      let st := { state with include_before := txt }
      match config.include_after with
      | some ia =>
        match readF (pyJoin root ia) with
        | .error _ => st
        | .ok t => { st with include_after := t }
      | none => st
  | none =>
    match config.include_after with
    | some ia =>
      match readF (pyJoin root ia) with
      | .error _ => state
      | .ok t => { state with include_after := t }
    | none => state

/-- Per-directory part of `process_pages`: classify each file of the node
into posts or pages and load its text, aborting on the first failed read
(the `.unwrap()` on `load_md_file`). -/
def classifyLoad (readF : Str → Except Str Str) (state : State) :
    List File → Except Str State
  | [] => .ok state
  | f :: rest => do
    let txt ← readF f.path
    let f' := { f with md := txt }
    let state' :=
      if f.is_post then { state with posts := state.posts ++ [f'] }
      else { state with static_pages := state.static_pages ++ [f'] }
    classifyLoad readF state' rest

mutual

/-- Translation of `process_pages`: this directory's files first, then the
subtrees in order. -/
def process_pages (readF : Str → Except Str Str) (state : State) :
    FileTree → Except Str State
  | .mk _ fls ts => do
    let state' ← classifyLoad readF state fls
    processSubtrees readF state' ts

/-- Recursion of `process_pages` over the list of subtrees. -/
def processSubtrees (readF : Str → Except Str Str) (state : State) :
    List FileTree → Except Str State
  | [] => .ok state
  | t :: rest => do
    let state' ← process_pages readF state t
    processSubtrees readF state' rest

end

/-- Translation of `compile_files`: wrap each record's rendered Markdown in
the include fragments.  The renderer (`render_md`, an external collaborator
that always returns `Ok`) is the oracle `renderF`. -/
def compile_files (renderF : Str -> Str) (state : State) : State :=
  let upd := fun (f : File) =>
    { f with html := state.include_before ++ renderF f.md ++ state.include_after }
  { state with static_pages := state.static_pages.map upd, posts := state.posts.map upd }

/-- How a run of `main` can end: with an exit code, or with an uncaught
Python exception (which the interpreter turns into a traceback). -/
inductive Outcome where
  | exit (code : Nat)
  | crash (msg : Str)
deriving DecidableEq

/-- The test `if r_tree is None:` from `main`.  `build_file_tree` returns a
`Result` object (`Ok` or `Err`), never `None`, so the test is always
false. -/
def py_is_none (_ : Except Str FileTree) : Bool := false

/-- Python `Result.ok()`: the payload for `Ok`, `None` for `Err`.  `main`
calls it unconditionally after the dead `is None` check. -/
def resOk (r : Except Str FileTree) : Option FileTree :=
  match r with
  | .ok t => some t
  | .error _ => none

/-- Translation of `main` after argument parsing.  `r_config` stands for
the `read_config` result, `readF` for file reads, `renderF` for the
Markdown renderer, and `fs` for the source directory's contents.  A raised
exception anywhere (an `.unwrap()` of an `Err`, an attribute access on
`None`, or `path_join`/`copytree` on an unset config field) is a `crash`
outcome. -/
def main_model (r_config : Except Str Config) (readF : Str -> Except Str Str)
    (renderF : Str -> Str) (fs : FSNode) (srcdir : Str) : Outcome :=
  match r_config with
  | .error _ => .exit 1
  | .ok config =>
    let state : State := {}
    let state := load_before_after_files readF srcdir config state
    let r_tree := build_file_tree fs srcdir srcdir config
    if py_is_none r_tree then .exit 1
    else
      match resOk r_tree with
      | none => .crash ("AttributeError: 'NoneType' object has no attribute 'files'".toList)
      | some tree =>
        match process_pages readF state tree with
        | .error e => .crash e
        | .ok state1 =>
          match preprocess_pages state1 with
          | .error e => .crash e
          | .ok state2 =>
            let _ := compile_files renderF state2
            match config.static_src, config.static_dest with
            | some _, some _ => .exit 0
            | _, _ => .crash ("TypeError: join() argument must be str, not NoneType".toList)

/-- All directory nodes of a tree: the node itself and, recursively, the
nodes of its subtrees. -/
def reachable : FileTree -> List FileTree
  | .mk p fls ts => .mk p fls ts :: (ts.attach.map (fun t => reachable t.1)).flatten
decreasing_by
  have := List.sizeOf_lt_of_mem t.2
  simp at this ⊢
  omega

/-- A read oracle whose every read fails (an unreadable file). -/
def failReader : Str -> Except Str Str :=
  fun _ => .error ("IOError: read failed".toList)

/-- A read oracle whose every read succeeds with empty text (an empty but
readable file). -/
def emptyReader : Str -> Except Str Str :=
  fun _ => .ok []

/-- C4: a document carrying a `title` (or, the title step not firing, a
`desc`) directive token without a well-formed double-quoted argument makes
`preprocess_md` fail with the malformed-directive error, producing no
updated document or metadata (the posts pass propagates the error and
leaves every record untouched); a document with none of the directive
tokens is not an error and keeps its metadata unchanged. -/
theorem c4_malformed_directive_is_error (statePosts : List File) (selfIdx : Option Nat)
    (meta : FileMetadata) (md : Str) :
    (titlePre md = true → reSearchDir ("title".toList) md = none →
      preprocess_md statePosts selfIdx meta md = .error ("Invalid match on 'title'".toList))
    ∧ (titlePre md = false → descPre md = true → reSearchDir ("desc".toList) md = none →
      preprocess_md statePosts selfIdx meta md = .error ("Invalid match on 'desc'".toList))
    ∧ (titlePre md = false → descPre md = false → postsPre md = false →
      preprocess_md statePosts selfIdx meta md = .ok (meta, pyStrip (tocStep md)))
    ∧ (∀ done rest f, titlePre f.md = true → reSearchDir ("title".toList) f.md = none →
      processPostList done (f :: rest) = .error ("Invalid match on 'title'".toList)) := by
  refine ⟨?_, ?_, ?_, ?_⟩
  · intro h1 h2
    simp at h2
    simp [preprocess_md, titleStep, h1, h2]
  · intro h1 h2 h3
    simp at h3
    simp [preprocess_md, titleStep, descStep, h1, h2, h3]
  · intro h1 h2 h3
    simp [preprocess_md, h1, h2, h3]
  · intro done rest f h1 h2
    simp at h2
    simp [processPostList, preprocess_md, titleStep, h1, h2]

/-- C4 witness: the concrete malformed document of the specification. -/
theorem c4_malformed_directive_is_error_witness :
    titlePre ("\x7b\x7b title \x7d\x7d".toList) = true
    ∧ reSearchDir ("title".toList) ("\x7b\x7b title \x7d\x7d".toList) = none
    ∧ preprocess_md [] none {} ("\x7b\x7b title \x7d\x7d".toList)
        = .error ("Invalid match on 'title'".toList) :=
  ⟨by decide, by decide,
    (c4_malformed_directive_is_error [] none {} ("\x7b\x7b title \x7d\x7d".toList)).1
      (by decide) (by decide)⟩

/-- C3 counterexample: the document holds a well-formed desc directive in
the whitespace variant with two spaces before the keyword; both pre-check
substrings are then absent, so `preprocess_md` neither sets
`metadata.description` nor deletes the directive text — refuting both the
whitespace-insensitivity and the pre-check-is-pure-optimization parts of
the claim. -/
theorem c3_desc_variant_counterexample :
    preprocess_md [] none {} ("\x7b\x7b  desc \"x\" \x7d\x7d".toList)
      = .ok ({}, "\x7b\x7b  desc \"x\" \x7d\x7d".toList)
    ∧ ({} : FileMetadata).desc ≠ "x".toList
    ∧ containsSub ("\x7b\x7b  desc \"x\" \x7d\x7d".toList) ("\x7b\x7b  desc".toList) = true := by
  refine ⟨rfl, by decide, by decide⟩

/-- C3 amended: when one of the desc pre-check substrings is present and
the desc pattern matches (whitespace before the keyword optional, at least
one whitespace character after it), `preprocess_md` stores the captured
string in `metadata.desc` and deletes the matched directive text; variants
that defeat the pre-check are silently left unprocessed, so the pre-check
is load-bearing, not a pure optimization. -/
theorem c3_desc_extraction_with_precheck (statePosts : List File) (selfIdx : Option Nat)
    (meta : FileMetadata) (md m0 cap : Str)
    (h1 : titlePre md = false) (h2 : descPre md = true)
    (h3 : reSearchDir ("desc".toList) md = some (m0, cap))
    (h4 : postsPre (replaceAll md m0 []) = false) :
    preprocess_md statePosts selfIdx meta md
      = .ok ({ meta with desc := cap }, pyStrip (tocStep (replaceAll md m0 []))) := by
  simp at h3
  simp [preprocess_md, descStep, h1, h2, h3, h4]

/-- C3 witness: a one-space desc directive is extracted and deleted. -/
theorem c3_desc_extraction_with_precheck_witness :
    reSearchDir ("desc".toList) ("Intro \x7b\x7b desc \"x\" \x7d\x7d end".toList)
      = some ("\x7b\x7b desc \"x\" \x7d\x7d".toList, "x".toList)
    ∧ preprocess_md [] none {} ("Intro \x7b\x7b desc \"x\" \x7d\x7d end".toList)
      = .ok ({ desc := "x".toList }, "Intro  end".toList) :=
  ⟨by decide,
    (c3_desc_extraction_with_precheck [] none {}
      ("Intro \x7b\x7b desc \"x\" \x7d\x7d end".toList)
      ("\x7b\x7b desc \"x\" \x7d\x7d".toList) ("x".toList)
      (by decide) (by decide) (by decide) (by decide)).trans rfl⟩

/-- C8 counterexample: with a configured before-fragment whose read fails,
`load_before_after_files` returns normally with the state unchanged —
bit-for-bit the same result as when the fragment file is readable but
empty.  The caller receives no failure signal at all, refuting the claim
that the failure is communicated. -/
theorem c8_swallowed_read_failure_counterexample :
    load_before_after_files failReader ("root".toList)
        { include_before := some ("before.html".toList) } {}
      = ({} : State)
    ∧ load_before_after_files emptyReader ("root".toList)
        { include_before := some ("before.html".toList) } {}
      = ({} : State) :=
  ⟨rfl, rfl⟩

/-- C8 amended: when the configured before-fragment cannot be read,
`load_before_after_files` swallows the exception (`except ... pass`) and
returns with the include text left exactly as it was (the empty default);
no failure reaches the caller. -/
theorem c8_read_failure_returns_state (readF : Str → Except Str Str) (root : Str)
    (config : Config) (state : State) (ib e : Str)
    (h1 : config.include_before = some ib)
    (h2 : readF (pyJoin root ib) = .error e) :
    load_before_after_files readF root config state = state := by
  simp [load_before_after_files, h1, h2]

/-- C8 witness: the amended behavior at a concrete failing read. -/
theorem c8_read_failure_returns_state_witness :
    load_before_after_files failReader ("root".toList)
        { include_before := some ("before.html".toList) }
        { include_after := "x".toList }
      = { include_after := "x".toList } :=
  c8_read_failure_returns_state failReader ("root".toList)
    { include_before := some ("before.html".toList) }
    { include_after := "x".toList }
    ("before.html".toList) ("IOError: read failed".toList) rfl rfl

/-- C9: when the tree build fails, `main` does not take its error branch
(the branch tests `r_tree is None`, which a `Result` value never is); it
proceeds with `tree = None`, and `process_pages` then crashes with an
`AttributeError` instead of printing the error and returning exit code 1. -/
theorem c9_tree_error_crashes (config : Config) (readF : Str → Except Str Str)
    (renderF : Str → Str) (fs : FSNode) (srcdir e : Str)
    (h : build_file_tree fs srcdir srcdir config = .error e) :
    main_model (.ok config) readF renderF fs srcdir
      = .crash ("AttributeError: 'NoneType' object has no attribute 'files'".toList) := by
  simp [main_model, py_is_none, resOk, h]

/-- C9 witness: a source directory that is a plain file makes `listdir`
raise `NotADirectoryError`, so the tree build returns `Err` and the run
crashes rather than exiting with code 1. -/
theorem c9_tree_error_crashes_witness :
    build_file_tree .file ("src".toList) ("src".toList) {} = .error ("NotADirectoryError".toList)
    ∧ main_model (.ok {}) failReader id .file ("src".toList)
      = .crash ("AttributeError: 'NoneType' object has no attribute 'files'".toList) :=
  ⟨rfl, c9_tree_error_crashes {} failReader id .file ("src".toList)
    ("NotADirectoryError".toList) rfl⟩

/-- Helper: the first slash of `root ++ '/' :: rest` sits at index
`root.length` when `root` itself has no slash. -/
theorem findSub_slash_append (root rest : Str) (h : '/' ∉ root) :
    findSub ("/".toList) (root ++ '/' :: rest) = some root.length := by
  induction root with
  | nil => simp [findSub, List.isPrefixOf]
  | cons c cs ih =>
    have hc : ¬ ('/' = c) := fun hh => h (hh ▸ List.mem_cons_self c cs)
    have ih' := ih (fun hm => h (List.mem_cons_of_mem c hm))
    simp [findSub, List.isPrefixOf, hc]
    simpa using ih' 

/-- Helper: replacing in an empty string is the identity. -/
theorem replaceAllFuel_nil (pat repl : Str) (h : pat ≠ []) (n : Nat) :
    replaceAllFuel pat repl n [] = [] := by
  cases n <;> simp [replaceAllFuel, findSub, h]

/-- Helper: one unfolding step of the fuelled replacement. -/
theorem replaceAllFuel_succ (pat repl : Str) (n : Nat) (s : Str) (i : Nat)
    (h : findSub pat s = some i) :
    replaceAllFuel pat repl (n + 1) s
      = s.take i ++ repl ++ replaceAllFuel pat repl n (s.drop (i + pat.length)) := by
  conv_lhs => unfold replaceAllFuel
  rw [h]

/-- Helper: when the single occurrence of `pat` is the final segment of the
string, `replaceAll` swaps exactly that segment. -/
theorem replaceAll_end_segment (u pat repl : Str) (hpat : pat ≠ [])
    (hfind : findSub pat (u ++ pat) = some u.length) :
    replaceAll (u ++ pat) pat repl = u ++ repl := by
  obtain ⟨c, cs, rfl⟩ : ∃ c cs, pat = c :: cs := by
    cases pat with
    | nil => exact absurd rfl hpat
    | cons c cs => exact ⟨c, cs, rfl⟩
  have hlen : (u ++ c :: cs).length = (u.length + cs.length) + 1 := by
    simp [List.length_append]
    omega
  have htake : (u ++ c :: cs).take u.length = u := List.take_left u (c :: cs)
  have hdrop : (u ++ c :: cs).drop (u.length + (c :: cs).length) = [] := by
    rw [← List.length_append]
    exact List.drop_length _
  unfold replaceAll
  rw [if_neg hpat, hlen, replaceAllFuel_succ _ _ _ _ _ hfind, htake, hdrop,
    replaceAllFuel_nil _ _ hpat]
  simp

/-- Helper: the URL of `root/stem.md` is `/stem.html` when `root` has no
slash and `.md` occurs only as the final extension. -/
theorem url_of_root_rel_path (root stem : Str) (h1 : '/' ∉ root)
    (h2 : findSub (".md".toList) (('/' :: stem) ++ (".md".toList))
      = some (stem.length + 1)) :
    url (root ++ '/' :: (stem ++ (".md".toList))) = '/' :: (stem ++ (".html".toList)) := by
  unfold url
  have hslash : findSub ("/".toList) (root ++ '/' :: (stem ++ (".md".toList)))
      = some root.length := findSub_slash_append root _ h1
  rw [hslash]
  have hdrop : (root ++ '/' :: (stem ++ (".md".toList))).drop root.length
      = '/' :: (stem ++ (".md".toList)) := by
    exact List.drop_left root ('/' :: (stem ++ (".md".toList)))
  simp only [hdrop]
  have := replaceAll_end_segment ('/' :: stem) (".md".toList) (".html".toList)
    (by decide) (by simpa using h2)
  simpa using this

/-- C6 counterexample: a document holding the identical title token twice;
`str.replace` removes every occurrence of the first match's text, so the
second occurrence is not left untouched — it vanishes from the output. -/
theorem c6_duplicate_directive_counterexample :
    preprocess_md [] none {} ("\x7b\x7btitle \"A\"\x7d\x7d\n\x7b\x7btitle \"A\"\x7d\x7d".toList)
      = .ok ({ title := "A".toList }, "# A".toList)
    ∧ containsSub ("# A".toList) ("\x7b\x7btitle".toList) = false :=
  ⟨rfl, by decide⟩

/-- C6 amended: only the first (leftmost, greedy) regex match is located,
but its replacement deletes every occurrence of the matched text `m0` from
the document; all text outside occurrences of `m0` — in particular a
second directive token with different text — is carried into the output
unchanged (up to the toc rewrite and final trim). -/
theorem c6_title_first_match_delete_all (statePosts : List File) (selfIdx : Option Nat)
    (meta : FileMetadata) (md m0 cap md1 : Str)
    (h1 : titlePre md = true)
    (h2 : reSearchDir ("title".toList) md = some (m0, cap))
    (hmd1 : md1 = '#' :: ' ' :: (cap ++ '\n' :: replaceAll md m0 []))
    (h3 : descPre md1 = false) (h4 : postsPre md1 = false) :
    preprocess_md statePosts selfIdx meta md
      = .ok ({ meta with title := cap }, pyStrip (tocStep md1)) := by
  subst hmd1
  simp at h2
  simp [preprocess_md, titleStep, h1, h2, h3, h4]

/-- C6 witness: two title tokens with different arguments on separate
lines; the second one survives in the output. -/
theorem c6_title_first_match_delete_all_witness :
    preprocess_md [] none {} ("\x7b\x7btitle \"A\"\x7d\x7d\nX \x7b\x7btitle \"B\"\x7d\x7d".toList)
      = .ok ({ title := "A".toList }, "# A\n\nX \x7b\x7btitle \"B\"\x7d\x7d".toList)
    ∧ containsSub ("# A\n\nX \x7b\x7btitle \"B\"\x7d\x7d".toList)
        ("\x7b\x7btitle \"B\"\x7d\x7d".toList) = true :=
  ⟨(c6_title_first_match_delete_all [] none {}
      ("\x7b\x7btitle \"A\"\x7d\x7d\nX \x7b\x7btitle \"B\"\x7d\x7d".toList)
      ("\x7b\x7btitle \"A\"\x7d\x7d".toList) ("A".toList)
      ('#' :: ' ' :: (("A".toList)
        ++ '\n' :: replaceAll ("\x7b\x7btitle \"A\"\x7d\x7d\nX \x7b\x7btitle \"B\"\x7d\x7d".toList)
             ("\x7b\x7btitle \"A\"\x7d\x7d".toList) []))
      (by decide) (by decide) rfl (by decide) (by decide)).trans rfl,
    by decide⟩

/-- C2: a document whose only directive is `posts` is rewritten by
substituting the generated fragment for the matched text; the fragment is
the outer container wrapping exactly one `entryHtml` block per post of the
snapshot, in list order; an entry depends only on its own post's path,
title, and description; and the href of a `root/stem.md` source path is
`/stem.html`. -/
theorem c2_posts_index_fragment (posts : List File) (meta : FileMetadata) (md m0 : Str)
    (h1 : titlePre md = false) (h2 : descPre md = false)
    (h3 : postsPre md = true) (h4 : reSearchPosts md = some m0) :
    preprocess_md posts none meta md
      = .ok (meta, pyStrip (tocStep (replaceAll md m0 (postsHtml posts))))
    ∧ postsHtml posts
      = ("<div class=\"posts\">".toList) ++ (posts.map entryHtml).flatten ++ ("</div>".toList)
    ∧ (∀ p q : File, p.path = q.path → p.metadata.title = q.metadata.title →
        p.metadata.desc = q.metadata.desc → entryHtml p = entryHtml q)
    ∧ (∀ root stem : Str, '/' ∉ root →
        findSub (".md".toList) (('/' :: stem) ++ (".md".toList)) = some (stem.length + 1) →
        url (root ++ '/' :: (stem ++ (".md".toList))) = '/' :: (stem ++ (".html".toList))) := by
  refine ⟨?_, rfl, ?_, ?_⟩
  · simp [preprocess_md, postsStep, writeSelf, h1, h2, h3, h4]
  · intro p q hp ht hd
    simp [entryHtml, hp, ht, hd]
  · intro root stem hr hf
    exact url_of_root_rel_path root stem hr hf

set_option maxRecDepth 8000 in
/-- C2 witness: one post, one page document holding only the posts
directive; the fragment has exactly that post's entry with the derived
URL, and the URL derivation example of the specification. -/
theorem c2_posts_index_fragment_witness :
    preprocess_md
        [{ path := "root/posts/a.md".toList,
           metadata := { title := "A".toList, desc := "da".toList },
           is_post := true }] none {} ("\x7b\x7b posts \x7d\x7d".toList)
      = .ok ({}, ("<div class=\"posts\"><div class=\"post\">\n<div class=\"post-heading\">\n<a href=\"/posts/a.html\">A</a>\n</div>\n<div class=\"post-desc\">\nda\n</div>\n</div>\n</div>").toList)
    ∧ url ("root/sub/post.md".toList) = "/sub/post.html".toList :=
  ⟨((c2_posts_index_fragment
      [{ path := "root/posts/a.md".toList,
         metadata := { title := "A".toList, desc := "da".toList },
         is_post := true }] {} ("\x7b\x7b posts \x7d\x7d".toList)
      ("\x7b\x7b posts \x7d\x7d".toList)
      (by decide) (by decide) (by decide) (by decide)).1).trans rfl,
    ((c2_posts_index_fragment [] {} ("\x7b\x7b posts \x7d\x7d".toList)
      ("\x7b\x7b posts \x7d\x7d".toList)
      (by decide) (by decide) (by decide) (by decide)).2.2.2
      ("root".toList) ("sub/post".toList) (by decide) (by decide))⟩

/-- C1: a successful run of `preprocess_pages` is exactly the posts pass
finishing first — producing the final posts list — followed by the pages
pass, each page preprocessed against that already-final posts list, so a
page's posts directive reads only fully populated post metadata. -/
theorem c1_posts_pass_precedes_pages (st st' : State)
    (h : preprocess_pages st = .ok st') :
    processPostList [] st.posts = .ok st'.posts
    ∧ processPageList st'.posts st.static_pages = .ok st'.static_pages
    ∧ st'.include_before = st.include_before
    ∧ st'.include_after = st.include_after := by
  unfold preprocess_pages at h
  cases h1 : processPostList [] st.posts with
  | error e => rw [h1] at h; cases h
  | ok posts' =>
    rw [h1] at h
    simp only [] at h
    cases h2 : processPageList posts' st.static_pages with
    | error e =>
      simp only [h2] at h
      cases h
    | ok pages' =>
      simp only [h2] at h
      cases h
      simp_all [h2]

set_option maxRecDepth 8000 in
/-- C1 witness: a one-post, one-page build; the page's posts directive is
substituted against the fully preprocessed post (its title already
extracted). -/
theorem c1_posts_pass_precedes_pages_witness :
    processPostList []
        [{ path := "root/posts/a.md".toList,
           md := "\x7b\x7b title \"A\" \x7d\x7d\nbody".toList, is_post := true }]
      = .ok [{ path := "root/posts/a.md".toList,
               metadata := { title := "A".toList },
               is_post := true, md := "# A\n\nbody".toList }]
    ∧ processPageList
        [{ path := "root/posts/a.md".toList,
           metadata := { title := "A".toList },
           is_post := true, md := "# A\n\nbody".toList }]
        [{ path := "root/index.md".toList, md := "\x7b\x7b posts \x7d\x7d".toList }]
      = .ok [{ path := "root/index.md".toList,
               md := ("<div class=\"posts\"><div class=\"post\">\n<div class=\"post-heading\">\n<a href=\"/posts/a.html\">A</a>\n</div>\n<div class=\"post-desc\">\n\n</div>\n</div>\n</div>").toList }] :=
  ⟨(c1_posts_pass_precedes_pages
      { posts := [{ path := "root/posts/a.md".toList,
                    md := "\x7b\x7b title \"A\" \x7d\x7d\nbody".toList, is_post := true }],
        static_pages := [{ path := "root/index.md".toList,
                           md := "\x7b\x7b posts \x7d\x7d".toList }] }
      { posts := [{ path := "root/posts/a.md".toList,
                    metadata := { title := "A".toList },
                    is_post := true, md := "# A\n\nbody".toList }],
        static_pages := [{ path := "root/index.md".toList,
                           md := ("<div class=\"posts\"><div class=\"post\">\n<div class=\"post-heading\">\n<a href=\"/posts/a.html\">A</a>\n</div>\n<div class=\"post-desc\">\n\n</div>\n</div>\n</div>").toList }] }
      rfl).1,
    (c1_posts_pass_precedes_pages
      { posts := [{ path := "root/posts/a.md".toList,
                    md := "\x7b\x7b title \"A\" \x7d\x7d\nbody".toList, is_post := true }],
        static_pages := [{ path := "root/index.md".toList,
                           md := "\x7b\x7b posts \x7d\x7d".toList }] }
      { posts := [{ path := "root/posts/a.md".toList,
                    metadata := { title := "A".toList },
                    is_post := true, md := "# A\n\nbody".toList }],
        static_pages := [{ path := "root/index.md".toList,
                           md := ("<div class=\"posts\"><div class=\"post\">\n<div class=\"post-heading\">\n<a href=\"/posts/a.html\">A</a>\n</div>\n<div class=\"post-desc\">\n\n</div>\n</div>\n</div>").toList }] }
      rfl).2.1⟩

/-- Helper: looking up the element right after a known block. -/
theorem get_after_block (done rest : List File) (f : File) :
    (done ++ f :: rest).get? done.length = some f := by
  induction done with
  | nil => rfl
  | cons d ds ih => simpa using ih

/-- Helper: setting the element right after a known block. -/
theorem set_after_block (done rest : List File) (f v : File) :
    (done ++ f :: rest).set done.length v = done ++ v :: rest := by
  induction done with
  | nil => rfl
  | cons d ds ih => simp [List.set, ih]

/-- Helper: the metadata write-through of the current post. -/
theorem writeSelf_current (done rest : List File) (f : File) (m : FileMetadata) :
    writeSelf (done ++ f :: rest) (some done.length) m
      = done ++ { f with metadata := m } :: rest := by
  unfold writeSelf
  simp only [get_after_block]
  exact set_after_block done rest f { f with metadata := m }

/-- C10: a posts directive inside a post's own document is substituted
during the posts pass with the snapshot `done ++ current :: rest`, where
`rest` are the posts not yet preprocessed; every such pending post still
has its default (empty) metadata, so its generated entry has an empty link
text and an empty description slot. -/
theorem c10_pending_posts_render_empty (done rest : List File) (f : File)
    (meta : FileMetadata) (md m0 : Str)
    (hrest : ∀ p ∈ rest, p.metadata = ({} : FileMetadata))
    (h1 : titlePre md = false) (h2 : descPre md = false)
    (h3 : postsPre md = true) (h4 : reSearchPosts md = some m0) :
    preprocess_md (done ++ f :: rest) (some done.length) meta md
      = .ok (meta, pyStrip (tocStep (replaceAll md m0
          (("<div class=\"posts\">".toList)
            ++ ((done.map entryHtml).flatten
                ++ (entryHtml { f with metadata := meta }
                    ++ (rest.map (fun p => emptyEntry p.path)).flatten))
            ++ ("</div>".toList)))))
    ∧ (∀ p : File, p.metadata = ({} : FileMetadata) → entryHtml p = emptyEntry p.path)
    ∧ processPostList done (f :: rest)
      = (match preprocess_md (done ++ f :: rest) (some done.length) f.metadata f.md with
         | .error e => .error e
         | .ok (m, s) => processPostList (done ++ [{ f with metadata := m, md := s }]) rest) := by
  have hentry : ∀ p : File, p.metadata = ({} : FileMetadata) → entryHtml p = emptyEntry p.path := by
    intro p hp
    simp [entryHtml, emptyEntry, hp]
  refine ⟨?_, hentry, rfl⟩
  have hmap : rest.map entryHtml = rest.map (fun p => emptyEntry p.path) :=
    List.map_congr_left (fun p hp => hentry p (hrest p hp))
  have hw := writeSelf_current done rest f meta
  simp [preprocess_md, postsStep, h1, h2, h3, h4, hw, postsHtml, hmap]

set_option maxRecDepth 8000 in
/-- C10 witness: two posts, the first containing a posts directive; its
output lists the second post with empty link text and description even
though that post's title is populated later in the same pass. -/
theorem c10_pending_posts_render_empty_witness :
    preprocess_md
        [{ path := "root/posts/a.md".toList, md := "\x7b\x7bposts\x7d\x7d".toList,
           is_post := true },
         { path := "root/posts/b.md".toList,
           md := "\x7b\x7b title \"B\" \x7d\x7d\nbb".toList, is_post := true }]
        (some 0) {} ("\x7b\x7bposts\x7d\x7d".toList)
      = .ok ({}, ("<div class=\"posts\"><div class=\"post\">\n<div class=\"post-heading\">\n<a href=\"/posts/a.html\"></a>\n</div>\n<div class=\"post-desc\">\n\n</div>\n</div>\n<div class=\"post\">\n<div class=\"post-heading\">\n<a href=\"/posts/b.html\"></a>\n</div>\n<div class=\"post-desc\">\n\n</div>\n</div>\n</div>").toList)
    ∧ processPostList []
        [{ path := "root/posts/a.md".toList, md := "\x7b\x7bposts\x7d\x7d".toList,
           is_post := true },
         { path := "root/posts/b.md".toList,
           md := "\x7b\x7b title \"B\" \x7d\x7d\nbb".toList, is_post := true }]
      = .ok [{ path := "root/posts/a.md".toList,
               md := ("<div class=\"posts\"><div class=\"post\">\n<div class=\"post-heading\">\n<a href=\"/posts/a.html\"></a>\n</div>\n<div class=\"post-desc\">\n\n</div>\n</div>\n<div class=\"post\">\n<div class=\"post-heading\">\n<a href=\"/posts/b.html\"></a>\n</div>\n<div class=\"post-desc\">\n\n</div>\n</div>\n</div>").toList,
               is_post := true },
             { path := "root/posts/b.md".toList,
               metadata := { title := "B".toList },
               md := "# B\n\nbb".toList, is_post := true }] :=
  ⟨((c10_pending_posts_render_empty []
      [{ path := "root/posts/b.md".toList,
         md := "\x7b\x7b title \"B\" \x7d\x7d\nbb".toList, is_post := true }]
      { path := "root/posts/a.md".toList, md := "\x7b\x7bposts\x7d\x7d".toList,
        is_post := true }
      {} ("\x7b\x7bposts\x7d\x7d".toList) ("\x7b\x7bposts\x7d\x7d".toList)
      (by intro p hp; simp at hp; simp [hp]) (by decide) (by decide) (by decide)
      (by decide)).1).trans rfl,
    rfl⟩

/-- C7 counterexample: the extracted title itself contains a title token;
the first pass plants it into the injected heading, so a second pass finds
it, extracts it, and prepends another level-1 heading — the second pass is
not a no-op on this once-preprocessed document. -/
theorem c7_second_pass_not_noop_counterexample :
    preprocess_md [] none {} ("\x7b\x7b title \"a \x7b\x7btitle \"b\"\x7d\x7d c\" \x7d\x7d\nbody".toList)
      = .ok ({ title := "a \x7b\x7btitle \"b\"\x7d\x7d c".toList },
             "# a \x7b\x7btitle \"b\"\x7d\x7d c\n\nbody".toList)
    ∧ preprocess_md [] none { title := "a \x7b\x7btitle \"b\"\x7d\x7d c".toList }
        ("# a \x7b\x7btitle \"b\"\x7d\x7d c\n\nbody".toList)
      = .ok ({ title := "b".toList }, "# b\n# a  c\n\nbody".toList)
    ∧ ("# b\n# a  c\n\nbody".toList : Str) ≠ "# a \x7b\x7btitle \"b\"\x7d\x7d c\n\nbody".toList :=
  ⟨rfl, rfl, by decide⟩

/-- Helper: dropping a satisfied run twice is dropping it once. -/
theorem dropWhileTwice (p : Char → Bool) (l : Str) :
    (l.dropWhile p).dropWhile p = l.dropWhile p := by
  induction l with
  | nil => rfl
  | cons c t ih =>
    by_cases h : p c
    · simp [List.dropWhile_cons, h, ih]
    · simp [List.dropWhile_cons, h]

/-- Helper: after `dropWhile`, the first remaining element (if any) fails
the test. -/
theorem dropWhile_head_false (p : Char → Bool) (l : Str) :
    l.dropWhile p = [] ∨ ∃ c cs, l.dropWhile p = c :: cs ∧ p c = false := by
  induction l with
  | nil => exact Or.inl rfl
  | cons c t ih =>
    by_cases h : p c
    · simpa [List.dropWhile_cons, h] using ih
    · exact Or.inr ⟨c, t, by simp [List.dropWhile_cons, h], by simpa using h⟩

/-- Helper: `dropWhile` never lengthens a list. -/
theorem dropWhile_length_le (p : Char → Bool) (l : Str) :
    (l.dropWhile p).length ≤ l.length := by
  induction l with
  | nil => simp
  | cons c t ih =>
    rw [List.dropWhile_cons]
    by_cases hp : p c
    · rw [if_pos hp]
      exact le_trans ih (by simp)
    · rw [if_neg hp]

/-- Helper: a list must keep its length when `dropWhile` leaves it
unchanged, so an unchanged `u ++ w` forces an unchanged `u`. -/
theorem dropWhile_eq_self_of_append (p : Char → Bool) (u w : Str)
    (h : (u ++ w).dropWhile p = u ++ w) : u.dropWhile p = u := by
  cases u with
  | nil => rfl
  | cons c cs =>
    rw [List.cons_append, List.dropWhile_cons] at h
    by_cases hp : p c
    · exfalso
      rw [if_pos hp] at h
      have hlen := congrArg List.length h
      have hle := dropWhile_length_le p (cs ++ w)
      simp [List.length_append] at hlen hle
      omega
    · rw [List.dropWhile_cons, if_neg hp]

/-- Helper: Python `strip` is idempotent. -/
theorem pyStrip_pyStrip (s : Str) : pyStrip (pyStrip s) = pyStrip s := by
  have hT := dropWhileTwice pyIsSpace s
  have hsplit : s.dropWhile pyIsSpace
      = ((s.dropWhile pyIsSpace).reverse.dropWhile pyIsSpace).reverse
        ++ ((s.dropWhile pyIsSpace).reverse.takeWhile pyIsSpace).reverse := by
    rw [← List.reverse_append, List.takeWhile_append_dropWhile, List.reverse_reverse]
  have hu := dropWhile_eq_self_of_append pyIsSpace
    ((s.dropWhile pyIsSpace).reverse.dropWhile pyIsSpace).reverse
    ((s.dropWhile pyIsSpace).reverse.takeWhile pyIsSpace).reverse
    (hsplit ▸ hT)
  unfold pyStrip
  rw [hu, List.reverse_reverse, dropWhileTwice]

/-- Helper: every successful `preprocess_md` output has already been
through the final `strip`. -/
theorem preprocess_md_ok_stripped (a : List File) (b : Option Nat) (c : FileMetadata)
    (d : Str) (m : FileMetadata) (o : Str)
    (h : preprocess_md a b c d = .ok (m, o)) : ∃ y, o = pyStrip y := by
  unfold preprocess_md at h
  split at h
  · cases h
  · split at h
    · cases h
    · split at h
      · cases h
      · simp at h
        exact ⟨_, h.2.symm⟩

/-- C7 amended: a second pass is the identity — returning the same
metadata and the same document — provided the once-preprocessed output
contains none of the directive pre-check substrings and no toc marker; the
counterexample shows the proviso is needed when an extracted title itself
carries a directive token. -/
theorem c7_second_pass_identity_on_clean_output (a1 a2 : List File)
    (b1 b2 : Option Nat) (meta meta' : FileMetadata) (md out : Str)
    (h : preprocess_md a1 b1 meta md = .ok (meta', out))
    (h1 : titlePre out = false) (h2 : descPre out = false) (h3 : postsPre out = false)
    (h4 : containsSub out ("[toc]".toList) = false) :
    preprocess_md a2 b2 meta' out = .ok (meta', out) := by
  obtain ⟨y, rfl⟩ := preprocess_md_ok_stripped _ _ _ _ _ _ h
  simp at h4
  simp [preprocess_md, h1, h2, h3, tocStep, h4, pyStrip_pyStrip]

/-- C7 witness: a directive-free title; the second pass returns the
once-preprocessed document and metadata unchanged. -/
theorem c7_second_pass_identity_on_clean_output_witness :
    preprocess_md [] none {} ("\x7b\x7b title \"T\" \x7d\x7d\nBody".toList)
      = .ok ({ title := "T".toList }, "# T\n\nBody".toList)
    ∧ preprocess_md [] none { title := "T".toList } ("# T\n\nBody".toList)
      = .ok ({ title := "T".toList }, "# T\n\nBody".toList) :=
  ⟨rfl, c7_second_pass_identity_on_clean_output [] [] none none {}
      { title := "T".toList } ("\x7b\x7b title \"T\" \x7d\x7d\nBody".toList)
      ("# T\n\nBody".toList) rfl (by decide) (by decide) (by decide) (by decide)⟩

/-- Helper: `reachable` of a node, with the `attach` used for termination
removed. -/
theorem reachable_mk (p : Str) (fls : List File) (cts : List FileTree) :
    reachable (FileTree.mk p fls cts)
      = FileTree.mk p fls cts :: (cts.map reachable).flatten := by
  rw [reachable]
  congr 1
  congr 1
  exact List.attach_map_coe _ _

/-- C5 core: walking one directory level, every file record of the level is
flagged a post exactly when the level's path equals root joined with the
configured posts directory, and every record in any reachable subtree is
classified the same way against its own directory's path. -/
theorem buildDir_classifies (root : Str) (config : Config) (pd : Str)
    (hpd : config.posts_dir = some pd) (entries : FSEntries) :
    ∀ (dirPath : Str) (fls : List File) (ts : List FileTree),
      buildDir root config dirPath entries = .ok (fls, ts) →
      ((∀ f ∈ fls, (f.is_post = true ↔ dirPath = pyJoin root pd)
          ∧ ∃ n, f.path = pyJoin dirPath n)
        ∧ (∀ t ∈ ts, ∀ t' ∈ reachable t, ∀ f ∈ t'.files,
            (f.is_post = true ↔ t'.path = pyJoin root pd)
            ∧ ∃ n, f.path = pyJoin t'.path n)) := by
  induction entries with
  | nil =>
    intro dirPath fls ts h
    simp [buildDir] at h
    obtain ⟨h1, h2⟩ := h
    subst h1
    subst h2
    exact ⟨by simp, by simp⟩
  | fileEntry fname rest ih =>
    intro dirPath fls ts h
    by_cases hexcl : isExcluded config fname
    · simp [buildDir, hexcl] at h
      exact ih dirPath fls ts h
    · simp [buildDir, hexcl, hpd] at h
      cases hrest : buildDir root config dirPath rest with
      | error e =>
        rw [hrest] at h
        simp at h
      | ok pr =>
        obtain ⟨rfls, rts⟩ := pr
        rw [hrest] at h
        simp at h
        obtain ⟨h1, h2⟩ := h
        subst h1
        subst h2
        have hre := ih dirPath rfls rts hrest
        refine ⟨?_, hre.2⟩
        intro f hf
        rcases List.mem_cons.mp hf with rfl | hmem
        · refine ⟨?_, fname, rfl⟩
          simp [decide_eq_true_iff]
        · exact hre.1 f hmem
  | dirEntry fname children rest ihc ihr =>
    intro dirPath fls ts h
    by_cases hexcl : isExcluded config fname
    · simp [buildDir, hexcl] at h
      exact ihr dirPath fls ts h
    · simp [buildDir, hexcl] at h
      cases hchild : buildDir root config (pyJoin dirPath fname) children with
      | error e =>
        rw [hchild] at h
        simp at h
      | ok cpr =>
        obtain ⟨cfs, cts⟩ := cpr
        rw [hchild] at h
        simp at h
        cases hrest : buildDir root config dirPath rest with
        | error e =>
          rw [hrest] at h
          simp at h
        | ok rpr =>
          obtain ⟨rfls, rts⟩ := rpr
          rw [hrest] at h
          simp at h
          obtain ⟨h1, h2⟩ := h
          subst h1
          subst h2
          have hch := ihc (pyJoin dirPath fname) cfs cts hchild
          have hre := ihr dirPath rfls rts hrest
          refine ⟨hre.1, ?_⟩
          intro t ht
          rcases List.mem_cons.mp ht with rfl | hmem
          · intro t' ht'
            rw [reachable_mk] at ht'
            rcases List.mem_cons.mp ht' with rfl | hmem'
            · intro f hf
              simp only [FileTree.path, FileTree.files] at *
              exact hch.1 f hf
            · simp only [List.mem_flatten, List.mem_map] at hmem'
              obtain ⟨l, ⟨ct, hct, rfl⟩, ht''⟩ := hmem'
              exact hch.2 ct hct t' ht''
          · exact hre.2 t hmem

/-- C5: in a successfully built file tree, a record is classified as a
post if and only if its immediate parent directory — the path of the tree
node holding it — equals the root joined with the configured posts
directory; files anywhere else, including subdirectories of the posts
directory, are pages. -/
theorem c5_post_classification (fs : FSNode) (dir root : Str) (config : Config)
    (pd : Str) (tree : FileTree)
    (hpd : config.posts_dir = some pd)
    (h : build_file_tree fs dir root config = .ok tree) :
    ∀ t ∈ reachable tree, ∀ f ∈ t.files,
      (f.is_post = true ↔ t.path = pyJoin root pd)
      ∧ ∃ n, f.path = pyJoin t.path n := by
  cases fs with
  | file => simp [build_file_tree] at h
  | dir entries =>
    cases hb : buildDir root config dir entries with
    | error e => simp [build_file_tree, hb] at h
    | ok pr =>
      obtain ⟨fls, ts⟩ := pr
      simp [build_file_tree, hb] at h
      subst h
      have hc := buildDir_classifies root config pd hpd entries dir fls ts hb
      intro t ht
      rw [reachable_mk] at ht
      rcases List.mem_cons.mp ht with rfl | hmem
      · intro f hf
        simp only [FileTree.path, FileTree.files] at *
        exact hc.1 f hf
      · simp only [List.mem_flatten, List.mem_map] at hmem
        obtain ⟨l, ⟨ct, hct, rfl⟩, ht'⟩ := hmem
        exact hc.2 ct hct t ht'

set_option maxRecDepth 8000 in
/-- C5 witness: a source tree with a posts directory holding one file and
one subdirectory; the file directly inside the posts directory is the only
post, while the file in the subdirectory and the root-level page are
pages. -/
theorem c5_post_classification_witness :
    build_file_tree
        (FSNode.dir
          (FSEntries.dirEntry ("posts".toList)
            (FSEntries.fileEntry ("a.md".toList)
              (FSEntries.dirEntry ("sub".toList)
                (FSEntries.fileEntry ("b.md".toList) FSEntries.nil)
                FSEntries.nil))
            (FSEntries.fileEntry ("index.md".toList) FSEntries.nil)))
        ("root".toList) ("root".toList) { posts_dir := some ("posts".toList) }
      = .ok (FileTree.mk ("root".toList)
          [{ path := "root/index.md".toList }]
          [FileTree.mk ("root/posts".toList)
            [{ path := "root/posts/a.md".toList, is_post := true }]
            [FileTree.mk ("root/posts/sub".toList)
              [{ path := "root/posts/sub/b.md".toList }] []]])
    ∧ (({ path := "root/posts/a.md".toList, is_post := true } : File).is_post = true
        ↔ ("root/posts".toList : Str) = pyJoin ("root".toList) ("posts".toList))
    ∧ (({ path := "root/posts/sub/b.md".toList } : File).is_post = true
        ↔ ("root/posts/sub".toList : Str) = pyJoin ("root".toList) ("posts".toList)) := by
  refine ⟨rfl, ?_, ?_⟩
  · exact ((c5_post_classification
      (FSNode.dir
        (FSEntries.dirEntry ("posts".toList)
          (FSEntries.fileEntry ("a.md".toList)
            (FSEntries.dirEntry ("sub".toList)
              (FSEntries.fileEntry ("b.md".toList) FSEntries.nil)
              FSEntries.nil))
          (FSEntries.fileEntry ("index.md".toList) FSEntries.nil)))
      ("root".toList) ("root".toList) { posts_dir := some ("posts".toList) }
      ("posts".toList)
      (FileTree.mk ("root".toList)
        [{ path := "root/index.md".toList }]
        [FileTree.mk ("root/posts".toList)
          [{ path := "root/posts/a.md".toList, is_post := true }]
          [FileTree.mk ("root/posts/sub".toList)
            [{ path := "root/posts/sub/b.md".toList }] []]])
      rfl rfl)
      (FileTree.mk ("root/posts".toList)
        [{ path := "root/posts/a.md".toList, is_post := true }]
        [FileTree.mk ("root/posts/sub".toList)
          [{ path := "root/posts/sub/b.md".toList }] []])
      (by simp [reachable_mk])
      { path := "root/posts/a.md".toList, is_post := true }
      (by simp [FileTree.files])).1
  · exact ((c5_post_classification
      (FSNode.dir
        (FSEntries.dirEntry ("posts".toList)
          (FSEntries.fileEntry ("a.md".toList)
            (FSEntries.dirEntry ("sub".toList)
              (FSEntries.fileEntry ("b.md".toList) FSEntries.nil)
              FSEntries.nil))
          (FSEntries.fileEntry ("index.md".toList) FSEntries.nil)))
      ("root".toList) ("root".toList) { posts_dir := some ("posts".toList) }
      ("posts".toList)
      (FileTree.mk ("root".toList)
        [{ path := "root/index.md".toList }]
        [FileTree.mk ("root/posts".toList)
          [{ path := "root/posts/a.md".toList, is_post := true }]
          [FileTree.mk ("root/posts/sub".toList)
            [{ path := "root/posts/sub/b.md".toList }] []]])
      rfl rfl)
      (FileTree.mk ("root/posts/sub".toList)
        [{ path := "root/posts/sub/b.md".toList }] [])
      (by simp [reachable_mk])
      { path := "root/posts/sub/b.md".toList }
      (by simp [FileTree.files])).1

end Sitegen
